import Mathlib

/-!
# Verification of the Email Campaign Agent core

A shallow embedding, in Lean 4, of the scheduler/executor core of the
email-agent application: the eligibility evaluator (`eligible.py`), the
Count step (`steps/count.py`), the shared recipient selector
(`steps/shared.py`), the send loop (`steps/send_base.py`), the step
executor (`step_processor.py`), the agent main loop and start/stop
dispatch (`agent.py`), and the store helpers (`aws_client.py`).

Python dictionaries are embedded as association lists, machine strings as
`String`, instants as `Int` (an abstract epoch time) where only ordering
matters and as `Option String` where only presence matters.  Unbounded
recursion in `check_eligibility` is embedded with an explicit fuel
parameter: `diverge` marks fuel exhaustion, so a result of `diverge` at
every fuel means the Python function never returns on that input.
-/

namespace EmailAgent

/-- Assoc-list lookup, the embedding of Python `dict.get(k)`. -/
def alookup {α : Type} (l : List (String × α)) (k : String) : Option α :=
  (l.find? (fun p => p.1 == k)).map (fun p => p.2)

/-- Python `k in d` for an assoc-list embedded dict. -/
def hasKey {α : Type} (l : List (String × α)) (k : String) : Bool :=
  (alookup l k).isSome

/-- Membership of `needle` as a contiguous sublist of `hay`
(used to state the substring checks on step messages). -/
def listContainsSub (needle : List Char) : List Char → Bool
  | [] => needle.isEmpty
  | c :: t => needle.isPrefixOf (c :: t) || listContainsSub needle t

/-- `needle` occurs as a substring of `hay`. -/
def strContainsSub (hay needle : String) : Bool :=
  listContainsSub needle.toList hay.toList

/-- Python `str.upper()` (character-wise, as in the source usage on
ASCII language codes). -/
def strUpper (s : String) : String := String.mk (s.data.map Char.toUpper)

/-- Python `str.lower()` (character-wise). -/
def strLower (s : String) : String := String.mk (s.data.map Char.toLower)

/-! ## Data model (`models.py`, §3 of the spec) -/

/-- `models.py` `StepStatus`. -/
inductive StepStatus where
  | ready
  | working
  | complete
  | error
  | interrupted
  | exception
  | sleeping
deriving DecidableEq, Repr

/-- `models.py` `Step`.  Times are kept as `Option String` placeholders;
their values never influence control flow in the embedded code. -/
structure Step where
  name : String
  status : StepStatus := .ready
  message : String := ""
  isActive : Bool := false
  startTime : Option String := none
  endTime : Option String := none
deriving DecidableEq, Repr

/-- One sub-event entry of a student program `offeringHistory` map.
`offeringSKU` is the stored SKU string, `""` when absent (Python
truthiness of a missing or empty SKU is falsy either way);
`hasOfferingIntent` embeds `'offeringIntent' in subevent_data`. -/
structure Offering where
  offeringSKU : String := ""
  hasOfferingIntent : Bool := false
deriving DecidableEq, Repr

/-- The per-event program state of a student record, with the boolean
fields read by `eligible.py` and the count-step stage filter. -/
structure Program where
  join : Bool := false
  accepted : Bool := false
  withdrawn : Bool := false
  oath : Bool := false
  attended : Bool := false
  manualInclude : Bool := false
  eligible : Bool := false
  test : Bool := false
  whichRetreats : List (String × Bool) := []
  offeringHistory : List (String × Offering) := []
deriving DecidableEq, Repr

/-- A recipient (student) record, restricted to the fields the core reads. -/
structure Student where
  id : String := ""
  email : String := ""
  first : String := ""
  last : String := ""
  unsubscribe : Bool := false
  writtenLangPref : Option String := none
  emails : List (String × String) := []
  practice : List (String × Bool) := []
  programs : List (String × Program) := []
deriving DecidableEq, Repr

/-- One attribute rule of a pool definition (`eligible.py`).  The rule is a
Python dict with a `type` tag and per-type fields; missing fields are
`none` / default. -/
structure Attr where
  type : String
  name : Option String := none
  inpool : Option String := none
  outpool : Option String := none
  pool1 : Option String := none
  pool2 : Option String := none
  field : Option String := none
  aid : Option String := none
  subevent : Option String := none
  pools : List String := []
  retreat : Option String := none
deriving DecidableEq, Repr

/-- A pool definition record. -/
structure Pool where
  name : String
  attributes : List Attr
deriving DecidableEq, Repr

/-- A work-order record, restricted to the fields the embedded code reads.
`languages` keeps Python dict iteration order as list order;
`poolConfig` is `config.get('pool')`. -/
structure WorkOrder where
  id : String := ""
  eventCode : String := ""
  subEvent : String := ""
  stage : String := ""
  languages : List (String × Bool) := []
  poolConfig : Option String := none
  account : Option String := none
  sendContinuously : Bool := false
  sendUntil : Option Int := none
  sendInterval : Option Int := none
  locked : Bool := false
  lockedBy : String := ""
  stopRequested : Bool := false
  state : Option String := none
  sleepUntil : Option Int := none
  steps : List Step := []
deriving DecidableEq, Repr

/-! ## Eligibility evaluator (`eligible.py`)

`check_eligibility` recurses through `pool`-type attributes with no cycle
detection.  The embedding `checkEligibilityFuel` is fuel-indexed:
`diverge` is returned when the recursion depth exceeds the fuel, so the
Python call diverges (hits the interpreter recursion limit) on an input
exactly when the embedding returns `diverge` for every fuel.
`err` embeds the `ValueError` raised for malformed attributes. -/

/-- Result of an eligibility evaluation: a boolean, a raised
`ValueError` (malformed pool attribute), or fuel exhaustion. -/
inductive EligRes where
  | ok (b : Bool)
  | err (msg : String)
  | diverge
deriving DecidableEq, Repr

/-- `any(check(p) for p in pools)` with error/divergence propagation and
Python short-circuiting. -/
def anyPoolCheck (recur : String → EligRes) : List String → EligRes
  | [] => .ok false
  | p :: rest =>
    match recur p with
    | .ok true => .ok true
    | .ok false => anyPoolCheck recur rest
    | e => e

/-- Evaluation of one pool attribute rule (the body of the `for attr`
loop in `check_eligibility`), with recursive pool checks delegated to
`recur`. -/
def evalAttr (recur : String → EligRes) (poolName : String) (student : Student)
    (currentAid : String) (currentSubevent : Option String) (attr : Attr) : EligRes :=
  match attr.type with
  | "true" => .ok true
  | "pool" =>
    match attr.name with
    | none => .err ("Pool " ++ poolName ++ " has a malformed pool type attribute missing required name field.")
    | some n => recur n
  | "pooldiff" =>
    match attr.inpool with
    | none => .err ("Pool " ++ poolName ++ " has a malformed pooldiff type attribute missing required inpool field.")
    | some inp =>
      match attr.outpool with
      | none => .err ("Pool " ++ poolName ++ " has a malformed pooldiff type attribute missing required outpool field.")
      | some outp =>
        match recur inp with
        | .ok true =>
          match recur outp with
          | .ok b => .ok (!b)
          | e => e
        | .ok false => .ok false
        | e => e
  | "pooland" =>
    match attr.pool1 with
    | none => .err ("Pool " ++ poolName ++ " has a malformed pooland type attribute missing required pool1 field.")
    | some p1 =>
      match attr.pool2 with
      | none => .err ("Pool " ++ poolName ++ " has a malformed pooland type attribute missing required pool2 field.")
      | some p2 =>
        match recur p1 with
        | .ok true => recur p2
        | .ok false => .ok false
        | e => e
  | "practice" =>
    match attr.field with
    | none => .ok false
    | some f => .ok ((alookup student.practice f).getD false)
  | "offering" =>
    let program := (alookup student.programs (attr.aid.getD "")).getD {}
    if attr.subevent == some "any" then
      .ok ((program.offeringHistory.any (fun p => p.2.offeringSKU != "")) && !program.withdrawn)
    else
      let sub := (alookup program.offeringHistory (attr.subevent.getD "")).getD {}
      .ok (sub.offeringSKU != "" && !program.withdrawn)
  | "currenteventoffering" =>
    let program := (alookup student.programs currentAid).getD {}
    let sub := (alookup program.offeringHistory (currentSubevent.getD "")).getD {}
    .ok (sub.offeringSKU != "" && !program.withdrawn)
  | "currenteventtest" =>
    let program := (alookup student.programs currentAid).getD {}
    .ok program.test
  | "currenteventnotoffering" =>
    let program := (alookup student.programs currentAid).getD {}
    let sub := (alookup program.offeringHistory (currentSubevent.getD "")).getD {}
    .ok (sub.offeringSKU == "")
  | "offeringandpools" =>
    match attr.aid with
    | none => .err ("Pool " ++ poolName ++ " has a malformed offeringandpools type attribute missing required aid field.")
    | some aid =>
      match attr.subevent with
      | none => .err ("Pool " ++ poolName ++ " has a malformed offeringandpools type attribute missing required subevent field.")
      | some sub =>
        let program := (alookup student.programs aid).getD {}
        if hasKey program.offeringHistory sub then
          anyPoolCheck recur attr.pools
        else
          .ok false
  | "oath" =>
    .ok ((alookup student.programs (attr.aid.getD "")).getD {}).oath
  | "attended" =>
    .ok ((alookup student.programs (attr.aid.getD "")).getD {}).attended
  | "join" =>
    .ok ((alookup student.programs (attr.aid.getD "")).getD {}).join
  | "currenteventjoin" =>
    .ok ((alookup student.programs currentAid).getD {}).join
  | "currenteventmanualinclude" =>
    .ok ((alookup student.programs currentAid).getD {}).manualInclude
  | "currenteventaccepted" =>
    let program := (alookup student.programs currentAid).getD {}
    .ok (program.accepted && !program.withdrawn)
  | "currenteventnotjoin" =>
    .ok (!((alookup student.programs currentAid).getD {}).join)
  | "joinwhich" =>
    let retreat := attr.retreat.getD ""
    let program := (alookup student.programs (attr.aid.getD "")).getD {}
    if program.join && !program.withdrawn && !program.whichRetreats.isEmpty then
      .ok (program.whichRetreats.any (fun p => p.1.startsWith retreat && p.2))
    else
      .ok false
  | "offeringwhich" =>
    let retreat := attr.retreat.getD ""
    let sub := attr.subevent.getD ""
    let program := (alookup student.programs (attr.aid.getD "")).getD {}
    if program.join && !program.withdrawn && !program.whichRetreats.isEmpty then
      let hasRetreat := program.whichRetreats.any (fun p => p.1.startsWith retreat && p.2)
      if hasRetreat && !program.offeringHistory.isEmpty then
        .ok (program.offeringHistory.any (fun p => p.1.startsWith sub && p.2.offeringSKU != ""))
      else
        .ok false
    else
      .ok false
  | "eligible" =>
    .ok ((alookup student.programs currentAid).getD {}).eligible
  | _ => .ok false

/-- The `for attr in pool['attributes']` loop: first satisfied rule wins
(logical OR), errors and divergence propagate immediately. -/
def checkAttrList (recur : String → EligRes) (poolName : String) (student : Student)
    (currentAid : String) (currentSubevent : Option String) : List Attr → EligRes
  | [] => .ok false
  | attr :: rest =>
    match evalAttr recur poolName student currentAid currentSubevent attr with
    | .ok true => .ok true
    | .ok false => checkAttrList recur poolName student currentAid currentSubevent rest
    | e => e

/-- Fuel-indexed embedding of `eligible.check_eligibility`.  Each
recursive pool reference consumes one unit of fuel; the Python original
has no such bound and no cycle detection. -/
def checkEligibilityFuel : Nat → String → Student → String → List Pool → Option String → EligRes
  | 0, _, _, _, _, _ => .diverge
  | fuel + 1, poolName, student, currentAid, pools, currentSubevent =>
    match pools.find? (fun p => p.name == poolName) with
    | none => .ok false
    | some pool =>
      if pool.attributes.isEmpty then .ok false
      else
        checkAttrList
          (fun n => checkEligibilityFuel fuel n student currentAid pools currentSubevent)
          poolName student currentAid currentSubevent pool.attributes

/-! ## Count step (`steps/count.py`) -/

/-- The stage fixup applied by `CountStep._build_campaign_string`. -/
def countStageFixup (stage : String) : String :=
  if stage == "eligible" || stage == "offering-reminder" || stage == "reg-reminder" then "reg"
  else stage

/-- The first truthy (non-empty) language key of the `languages` dict,
upper-cased; `"EN"` when there is none (`CountStep._build_campaign_string`). -/
def countFirstLangCode (languages : List (String × Bool)) : String :=
  match languages.find? (fun p => p.1 != "") with
  | some p => strUpper p.1
  | none => "EN"

/-- `CountStep._build_campaign_string`: underscore-joined, stage fixed up,
one language code taken from the first `languages` key. -/
def countBuildCampaignString (wo : WorkOrder) : String :=
  wo.eventCode ++ "_" ++ wo.subEvent ++ "_" ++ countStageFixup wo.stage ++ "_"
    ++ countFirstLangCode wo.languages

/-- `CountStep.LANG_CODE_TO_NAME` (note: distinct from the map in
`steps/shared.py`, which uses `SP` for Spanish). -/
def countLangCodeToName (code : String) : String :=
  let c := strUpper code
  if c == "EN" then "English"
  else if c == "FR" then "French"
  else if c == "ES" then "Spanish"
  else if c == "DE" then "German"
  else if c == "IT" then "Italian"
  else if c == "CZ" then "Czech"
  else if c == "PT" then "Portuguese"
  else code

/-- `CountStep._passes_stage_filter`. -/
def countPassesStageFilter (student : Student) (wo : WorkOrder) : Bool :=
  let stage := wo.stage
  if stage == "std" || stage == "eligible" then true
  else
    let program := (alookup student.programs wo.eventCode).getD {}
    if stage == "reg" then
      program.join && !program.withdrawn
    else if stage == "accept" then
      program.join && program.accepted && !program.withdrawn
    else if stage == "reg-confirm" then
      if !(program.join && !program.withdrawn) then false
      else if wo.subEvent == "" then false
      else ((alookup program.offeringHistory wo.subEvent).getD {}).hasOfferingIntent
    else if stage == "offering-reminder" then
      if !(program.join && !program.withdrawn) then false
      else if wo.subEvent == "" then false
      else !((alookup program.offeringHistory wo.subEvent).getD {}).hasOfferingIntent
    else false

/-- Result of a count pass: the two counters, a propagated `ValueError`
from the eligibility evaluator, or its divergence. -/
inductive CountRes where
  | ok (received willReceive : Nat)
  | err (msg : String)
  | diverge
deriving DecidableEq, Repr

/-- The per-student body of `CountStep._count_recipients_simple`, folded
over the scanned student table.  Note the single `campaign` string and the
single `(received, willReceive)` pair for the whole work order, and that
the eligibility call passes no sub-event. -/
def countRecipientsSimple (fuel : Nat) (pools : List Pool) (wo : WorkOrder)
    (campaign : String) : List Student → Nat → Nat → CountRes
  | [], received, willReceive => .ok received willReceive
  | student :: rest, received, willReceive =>
    if student.unsubscribe then
      countRecipientsSimple fuel pools wo campaign rest received willReceive
    else if hasKey student.emails campaign then
      countRecipientsSimple fuel pools wo campaign rest (received + 1) willReceive
    else
      let langCodes := wo.languages.map (fun p => p.1)
      let hasEnglish := langCodes.contains "EN"
      let selectedFullNames := langCodes.map (fun c => strLower (countLangCodeToName c))
      let langOk :=
        if hasEnglish then true
        else
          match student.writtenLangPref with
          | none => false
          | some w => w != "" && selectedFullNames.contains (strLower w)
      if !langOk then
        countRecipientsSimple fuel pools wo campaign rest received willReceive
      else
        match wo.poolConfig with
        | none => countRecipientsSimple fuel pools wo campaign rest received willReceive
        | some poolName =>
          match checkEligibilityFuel fuel poolName student wo.eventCode pools none with
          | .ok true =>
            if countPassesStageFilter student wo then
              countRecipientsSimple fuel pools wo campaign rest received (willReceive + 1)
            else
              countRecipientsSimple fuel pools wo campaign rest received willReceive
          | .ok false => countRecipientsSimple fuel pools wo campaign rest received willReceive
          | .err m => .err m
          | .diverge => .diverge

/-- Result of a step handler run that produces a message. -/
inductive MsgRes where
  | ok (s : String)
  | err (msg : String)
  | diverge
deriving DecidableEq, Repr

/-- The success message written into the Count step by
`CountStep.process`: one combined pair of counters over one campaign
string, no per-language breakdown. -/
def countStepMessage (fuel : Nat) (students : List Student) (pools : List Pool)
    (wo : WorkOrder) : MsgRes :=
  match countRecipientsSimple fuel pools wo (countBuildCampaignString wo) students 0 0 with
  | .ok received willReceive =>
    .ok ("Already received: " ++ toString received ++ ", Will send: " ++ toString willReceive
      ++ ", Total: " ++ toString (received + willReceive))
  | .err m => .err m
  | .diverge => .diverge

/-! ## Shared selection pipeline (`steps/shared.py`) -/

/-- `shared.LANG_CODE_TO_NAME` based `code_to_full_language` (this map
uses `SP` for Spanish). -/
def codeToFullLanguage (code : String) : String :=
  let c := strUpper code
  if c == "EN" then "English"
  else if c == "FR" then "French"
  else if c == "SP" then "Spanish"
  else if c == "DE" then "German"
  else if c == "IT" then "Italian"
  else if c == "CZ" then "Czech"
  else if c == "PT" then "Portuguese"
  else code

/-- `shared.build_campaign_string`: hyphen-joined, raw stage. -/
def buildCampaignString (eventCode subEvent stage language : String) : String :=
  eventCode ++ "-" ++ subEvent ++ "-" ++ stage ++ "-" ++ language

/-- The stage record consumed by `shared.passes_stage_filter`, reduced to
the only field it reads: the `pools` list, `none` when the record is
empty/missing or has no `pools` key. -/
def StagePools := Option (List String)

/-- `for pool in pools: if not check(pool): return False` with
error/divergence propagation. -/
def allPoolsCheck (recur : String → EligRes) : List String → EligRes
  | [] => .ok true
  | p :: rest =>
    match recur p with
    | .ok true => allPoolsCheck recur rest
    | .ok false => .ok false
    | e => e

/-- `shared.passes_stage_filter`: vacuously true without a `pools` field,
otherwise an AND over the listed pools, each checked through the
eligibility evaluator. -/
def passesStageFilterShared (recur : String → EligRes) : StagePools → EligRes
  | none => .ok true
  | some pools => allPoolsCheck recur pools

/-- Result of a recipient selection: the selected students in table
order, a propagated `ValueError`, or divergence of the evaluator. -/
inductive SelectRes where
  | ok (students : List Student)
  | err (msg : String)
  | diverge
deriving DecidableEq, Repr

/-- The language gate of `shared.find_eligible_students`: English passes
every student; any other language requires a case-insensitive match of
`writtenLangPref` with the full language name. -/
def langEligible (lang : String) (student : Student) : Bool :=
  let langFullName := strLower (codeToFullLanguage lang)
  if langFullName == "english" then true
  else
    match student.writtenLangPref with
    | none => false
    | some w => w != "" && strLower w == langFullName

/-- `shared.find_eligible_students` for one language `lang` and one
already-built `campaign` string.  The already-received test is exact
membership of `campaign` among the keys of `student.emails`.  The
eligibility object built by `SendBaseStep._create_eligible_object` passes
the work order sub-event to every stage-pool check. -/
def findEligibleStudents (fuel : Nat) (pools : List Pool) (wo : WorkOrder)
    (campaign : String) (stagePools : StagePools) (lang : String) :
    List Student → SelectRes
  | [] => .ok []
  | student :: rest =>
    let skip := findEligibleStudents fuel pools wo campaign stagePools lang rest
    if student.unsubscribe then skip
    else if hasKey student.emails campaign then skip
    else if !(langEligible lang student) then skip
    else
      match wo.poolConfig with
      | none => skip
      | some poolName =>
        match checkEligibilityFuel fuel poolName student wo.eventCode pools (some wo.subEvent) with
        | .ok true =>
          match passesStageFilterShared
              (fun n => checkEligibilityFuel fuel n student wo.eventCode pools (some wo.subEvent))
              stagePools with
          | .ok true =>
            match skip with
            | .ok l => .ok (student :: l)
            | e => e
          | .ok false => skip
          | .err m => .err m
          | .diverge => .diverge
        | .ok false => skip
        | .err m => .err m
        | .diverge => .diverge

/-! ## Send / Dry-Run loop (`steps/send_base.py`)

`SendBaseStep.process` is embedded per language: the recipient loop over
the eligible students, with the environment (store reloads, queue polls,
quota counts, transport results) abstracted as functions of the recipient
index.  Effects on the student table and recipient-log tables are
collected explicitly. -/

/-- Static configuration of one send pass. -/
structure SendCfg where
  dryrun : Bool
  hasAccount : Bool
  sendLimit : Nat
  burstSize : Nat
deriving Repr

/-- The environment a send pass observes, indexed by recipient position:
`stopAtReload i` is `stopRequested` on the work order reloaded before
recipient `i`; `stopInQueue i` is `check_for_stop_messages` at the
every-5 poll; `stopDuringBurstAfter i` is a stop observed inside the
burst sleep following recipient `i`; `count24hAt i` is the send-recipient
scan count at the every-10 quota re-check; `sendSucceeds i` is the
transport result. -/
structure SendEnv where
  stopAtReload : Nat → Bool
  stopInQueue : Nat → Bool
  stopDuringBurstAfter : Nat → Bool
  count24hAt : Nat → Nat
  sendSucceeds : Nat → Bool

/-- Control outcome of the per-language recipient loop:
`completed` (the loop ran off the end of the list), `stoppedLocal`
(a stop was observed; the handler set the step to `interrupted` locally
and returned `False`), or `raised` (an exception escaped `process`). -/
inductive LoopOut where
  | completed
  | stoppedLocal
  | raised (msg : String)
deriving DecidableEq, Repr

/-- Writes performed by a send pass: `emailsWrites` records the
`(student id, campaign string)` pairs merged into `student.emails`
(non-dry sends only), `sendRecAppends` / `dryrunAppends` the recipient
emails appended to the two recipient-log tables. -/
structure SendEffects where
  emailsWrites : List (String × String) := []
  sendRecAppends : List String := []
  dryrunAppends : List String := []
deriving DecidableEq, Repr

/-- The condition of the every-10 periodic quota re-check in the send
loop (`send_base.py`): only for real sends with an account, only at
`i > 0, i % 10 == 0`, and tripping iff `count >= SMTP_24_HOUR_SEND_LIMIT`. -/
def quotaTripped (cfg : SendCfg) (i cnt : Nat) : Bool :=
  !cfg.dryrun && cfg.hasAccount && decide (0 < i) && (i % 10 == 0) && decide (cfg.sendLimit ≤ cnt)

/-- The bookkeeping after a successful transport submission: a dry run
appends only to the dry-run recipient log; a real send merges the
campaign key into `student.emails` and appends to the send recipient
log. -/
def recordSend (cfg : SendCfg) (eff : SendEffects) (student : Student)
    (campaign : String) : SendEffects :=
  if cfg.dryrun then
    { eff with dryrunAppends := eff.dryrunAppends ++ [student.email] }
  else
    { eff with
        emailsWrites := eff.emailsWrites ++ [(student.id, campaign)],
        sendRecAppends := eff.sendRecAppends ++ [student.email] }

/-- One-language recipient loop of `SendBaseStep.process` (lines 144-210),
starting at recipient index `i`. -/
def sendLoop (cfg : SendCfg) (env : SendEnv) (campaign : String) :
    List Student → Nat → SendEffects → LoopOut × SendEffects
  | [], _, eff => (.completed, eff)
  | student :: rest, i, eff =>
    if env.stopAtReload i then
      (.stoppedLocal, eff)
    else if i % 5 == 0 && env.stopInQueue i then
      (.stoppedLocal, eff)
    else if quotaTripped cfg i (env.count24hAt i) then
      (.raised "24-hour send limit reached during sending", eff)
    else if !(env.sendSucceeds i) then
      (.raised ("Email sending failed: " ++ student.email), eff)
    else
      let eff1 := recordSend cfg eff student campaign
      if !cfg.dryrun && (i + 1) % cfg.burstSize == 0 && decide (0 < rest.length)
          && env.stopDuringBurstAfter i then
        (.stoppedLocal, eff1)
      else
        sendLoop cfg env campaign rest (i + 1) eff1

/-! ## Step executor (`step_processor.py`) -/

/-- How a step handler run ends, as seen by
`StepProcessor.process_step`: a `True` return, a `False` return, a raised
`InterruptedError`, or any other raised exception with its message. -/
inductive HandlerEvent where
  | success (stepMessage : String)
  | returnedFalse
  | raisedInterrupted
  | raisedExc (msg : String)
deriving DecidableEq, Repr

/-- The status and message `StepProcessor.process_step` persists for a
non-Send step (and for a Send step outside the parking path): the
`False`-return and generic-exception branches both persist `error`;
only a raised `InterruptedError` persists `interrupted`; `exception` is
never produced here. -/
def processStepPersist : HandlerEvent → StepStatus × String
  | .success stepMessage => (.complete, stepMessage)
  | .returnedFalse => (.error, "Step failed")
  | .raisedInterrupted => (.interrupted, "Step interrupted by stop request.")
  | .raisedExc msg => (.error, msg)

/-- `HandlerEvent` produced by the Send handler from its loop outcome:
a local stop observation is a `False` return (`send_base.py` sets the
step `interrupted` in memory but returns `False`); exceptions propagate. -/
def sendHandlerEvent (successMessage : String) : LoopOut → HandlerEvent
  | .completed => .success successMessage
  | .stoppedLocal => .returnedFalse
  | .raised msg => .raisedExc msg

/-- Status persisted for a Send/Dry-Run step whose loop ended as `out`
(the non-parking paths of the `Send` branch of `process_step`). -/
def sendPersistedStatus (successMessage : String) (out : LoopOut) : StepStatus × String :=
  processStepPersist (sendHandlerEvent successMessage out)

/-! ## Sleep queue parking (`step_processor.py` lines 113-142,
`agent.py` main loop) -/

/-- An entry of the in-memory sleep queue. -/
structure SleepEntry where
  workOrderId : String
  sleepUntil : Int
deriving DecidableEq, Repr

/-- `StepProcessor.process_step` parking append: drop any existing entry
for the work order, then append the fresh one. -/
def processorParkAppend (queue : List SleepEntry) (woId : String) (sleepUntil : Int) :
    List SleepEntry :=
  (queue.filter (fun e => e.workOrderId != woId)) ++ [⟨woId, sleepUntil⟩]

/-- The two in-memory sleep-queue lists of a running agent process.
`EmailAgent.__init__` makes `self.sleep_queue = []` and constructs
`StepProcessor(self.aws_client, logging_config=logging_config)` without
passing that list, so the processor falls back to a fresh list of its
own; `procSharesAgentQueue` records whether the constructor was given the
agent's list (Python aliasing). -/
structure AgentQueues where
  agentQueue : List SleepEntry
  procQueue : List SleepEntry
  procSharesAgentQueue : Bool
deriving DecidableEq, Repr

/-- The queues of a freshly constructed `EmailAgent` (`agent.py`
lines 16-32): both empty, and not shared because `__init__` omits the
`sleep_queue` argument of `StepProcessor`. -/
def mkEmailAgentQueues : AgentQueues :=
  { agentQueue := [], procQueue := [], procSharesAgentQueue := false }

/-- Parking a work order through the step processor: the append goes to
the processor's list, which is the agent's list only under aliasing. -/
def parkWorkOrder (q : AgentQueues) (woId : String) (sleepUntil : Int) : AgentQueues :=
  if q.procSharesAgentQueue then
    { q with
        agentQueue := processorParkAppend q.agentQueue woId sleepUntil,
        procQueue := processorParkAppend q.procQueue woId sleepUntil }
  else
    { q with procQueue := processorParkAppend q.procQueue woId sleepUntil }

/-- The entries the agent main loop wakes on a poll tick (`agent.py`
lines 186-197): entries of the agent's own `sleep_queue` with
`sleep_until <= now`. -/
def sweepWakeable (q : AgentQueues) (now : Int) : List SleepEntry :=
  q.agentQueue.filter (fun e => decide (e.sleepUntil ≤ now))

/-! ## Store helpers (`aws_client.py`) -/

/-- A work-order row as seen by the lock-recovery scan. -/
structure WoRow where
  id : String
  locked : Bool
  lockedBy : String
  state : Option String := none
deriving DecidableEq, Repr

/-- `AWSClient.unlock_all_work_orders`: scan for `locked = true` and
clear `locked`/`lockedBy` on every hit; no state is exempted.  Returns
the updated table and the released count. -/
def unlockAllWorkOrders (store : List WoRow) : List WoRow × Nat :=
  (store.map (fun w => if w.locked then { w with locked := false, lockedBy := "" } else w),
   (store.filter (fun w => w.locked)).length)

/-- An entry of a send-recipient log record. -/
structure SendRecEntry where
  account : Option String := none
  sendtime : Option Int := none
deriving DecidableEq, Repr

/-- A send-recipient log record (one per campaign string). -/
structure SendRecRecord where
  entries : List SendRecEntry := []
deriving DecidableEq, Repr

/-- `AWSClient.count_emails_sent_by_account_in_last_24_hours`.  The scan
either yields the table rows or fails; on any failure the function
returns `0` ("don't block sends if we can't check the limit").
`cutoff` is the instant 24 hours before now; entries with a missing or
unparseable `sendtime` are skipped. -/
def countEmails24h (scan : Except String (List SendRecRecord)) (account : String)
    (cutoff : Int) : Nat :=
  match scan with
  | .error _ => 0
  | .ok items =>
    items.foldl
      (fun acc item =>
        acc + (item.entries.filter (fun e =>
          e.account == some account &&
          match e.sendtime with
          | some t => decide (cutoff ≤ t)
          | none => false)).length)
      0

/-- The pre-check at the top of `SendBaseStep.process`: the step raises
iff the 24-hour count has reached the limit. -/
def quotaPreCheckBlocks (cnt limit : Nat) : Bool :=
  decide (limit ≤ cnt)

/-- One language pass of `SendBaseStep.process`: the campaign string is
built by `shared.build_campaign_string` from the raw work-order fields
and the language, and the recipient loop starts at index 0 with no
effects. -/
def sendLanguagePass (cfg : SendCfg) (env : SendEnv) (wo : WorkOrder) (lang : String)
    (eligible : List Student) : LoopOut × SendEffects :=
  sendLoop cfg env (buildCampaignString wo.eventCode wo.subEvent wo.stage lang) eligible 0 {}

/-- `_send_student_email` ledger write for a real send: merge
`emails[campaign] = timestamp` into the student record. -/
def applyEmailWrite (s : Student) (campaign timestamp : String) : Student :=
  { s with emails := (s.emails.filter (fun p => p.1 != campaign)) ++ [(campaign, timestamp)] }

/-! ## Start-request handling prefix (`agent.py` `_handle_start_request`) -/

/-- `EmailAgent._update_step_status`: rewrite the named step (first name
match) with the given status and message; `isActive` tracks `working`,
the times are set per status.  A missing step leaves the list unchanged. -/
def agentSetStepStatus (steps : List Step) (stepName : String) (status : StepStatus)
    (msg : String) : List Step :=
  match steps.findIdx? (fun s => s.name == stepName) with
  | none => steps
  | some idx =>
    steps.set idx
      { name := stepName, status := status, message := msg,
        isActive := status == .working,
        startTime := if status == .working then some "now" else none,
        endTime := if status == .complete || status == .error || status == .exception
          then some "now" else none }

/-- The predecessor gate of `_handle_start_request`: the step is first,
or the step before it is `complete`. -/
def prevStepComplete (steps : List Step) (idx : Nat) : Bool :=
  if idx == 0 then true
  else
    match steps[idx - 1]? with
    | some p => p.status == .complete
    | none => true

/-- The start statuses `_handle_start_request` accepts (everything
except `working`, which is a duplicate). -/
def allowedStartStatus (s : StepStatus) : Bool :=
  s == .ready || s == .complete || s == .interrupted || s == .error
    || s == .exception || s == .sleeping

/-- How the validation prefix of `_handle_start_request` ends. -/
inductive StartOutcome where
  | droppedDuplicate
  | rejected (msg : String)
  | proceeded
deriving DecidableEq, Repr

/-- The validation prefix of `EmailAgent._handle_start_request`
(lines 411-454), up to but not including the lock attempt: the handler
*first* unconditionally clears `stopRequested` on the work order, then
locates the step, gates on the predecessor, and silently drops a
duplicate request against a `working` step.  Returns the work order as
the store sees it when the prefix ends. -/
def handleStartPrefix (wo : WorkOrder) (stepName : String) : WorkOrder × StartOutcome :=
  let wo1 := { wo with stopRequested := false }
  match wo1.steps.findIdx? (fun s => s.name == stepName) with
  | none =>
    let steps2 := agentSetStepStatus wo1.steps stepName .error ("Step " ++ stepName ++ " not found")
    ({ wo1 with steps := steps2 }, .rejected "step not found")
  | some idx =>
    match wo1.steps[idx]? with
    | none => (wo1, .rejected "step not found")
    | some step =>
      if !(prevStepComplete wo1.steps idx) then
        let steps2 := agentSetStepStatus wo1.steps stepName .error
          ("Cannot start " ++ stepName ++ " step. Previous step must be complete.")
        ({ wo1 with steps := steps2 }, .rejected "previous step not complete")
      else if step.status == .working then
        (wo1, .droppedDuplicate)
      else if !(allowedStartStatus step.status) then
        let steps2 := agentSetStepStatus wo1.steps stepName .error
          "Cannot start step with invalid status"
        ({ wo1 with steps := steps2 }, .rejected "invalid status")
      else
        (wo1, .proceeded)

/-- Apply a list of `(student id, campaign)` ledger writes to a student
table, all with the same timestamp: the store-side effect of the
`update_student_emails` calls of a pass. -/
def applyEmailWrites (students : List Student) (writes : List (String × String))
    (timestamp : String) : List Student :=
  writes.foldl
    (fun tbl w => tbl.map (fun s => if s.id == w.1 then applyEmailWrite s w.2 timestamp else s))
    students

/-! ## Concrete fixtures for the claim analyses -/

/-- The pool `everyone = [{type: true}]` of scenario S1. -/
def poolEveryone : Pool := { name := "everyone", attributes := [{ type := "true" }] }

/-- Scenario S1 work order: two enabled languages, stage `eligible`. -/
def woS1 : WorkOrder :=
  { eventCode := "vr20251001", subEvent := "retreat", stage := "eligible",
    languages := [("EN", true), ("FR", true)], poolConfig := some "everyone" }

/-- S1 student 1: unsubscribed. -/
def s1C1 : Student := { id := "s1", unsubscribe := true }

/-- S1 student 2: holds the hyphen-joined, unaliased EN campaign key. -/
def s2C1 : Student :=
  { id := "s2", emails := [("vr20251001-retreat-eligible-EN", "2024-01-01T00:00:00Z")] }

/-- S1 student 3: plain. -/
def s3C1 : Student := { id := "s3" }

/-- A minimal work order for the selector and send-loop analyses. -/
def woC5 : WorkOrder :=
  { eventCode := "ev", subEvent := "se", stage := "st",
    languages := [("EN", true)], poolConfig := some "everyone" }

/-- A student whose ledger holds only the underscore-joined form of the
campaign key. -/
def u5 : Student := { id := "u", email := "u@x", emails := [("ev_se_st_EN", "t")] }

/-- Send configuration of scenario S3: a real send with an account. -/
def cfgSend : SendCfg :=
  { dryrun := false, hasAccount := true, sendLimit := 1000, burstSize := 10 }

/-- Dry-run configuration. -/
def cfgDry : SendCfg :=
  { dryrun := true, hasAccount := true, sendLimit := 1000, burstSize := 10 }

/-- An environment in which the reload before recipient 1 observes
`stopRequested = true`; everything else is quiet and every send
succeeds. -/
def envStopAt1 : SendEnv :=
  { stopAtReload := fun i => i == 1, stopInQueue := fun _ => false,
    stopDuringBurstAfter := fun _ => false, count24hAt := fun _ => 0,
    sendSucceeds := fun _ => true }

/-- A fully quiet environment. -/
def envQuiet : SendEnv :=
  { stopAtReload := fun _ => false, stopInQueue := fun _ => false,
    stopDuringBurstAfter := fun _ => false, count24hAt := fun _ => 0,
    sendSucceeds := fun _ => true }

/-- Three eligible recipients. -/
def r0 : Student := { id := "r0", email := "r0@x" }

/-- Second recipient. -/
def r1 : Student := { id := "r1", email := "r1@x" }

/-- Third recipient. -/
def r2 : Student := { id := "r2", email := "r2@x" }

/-- A work order whose `Prepare` step is `working` while a stop was
requested; predecessor complete, locked by another agent. -/
def woC8 : WorkOrder :=
  { steps := [{ name := "Count", status := .complete },
              { name := "Prepare", status := .working }],
    locked := true, lockedBy := "agentA", stopRequested := true }

/-- A locked, sleeping work-order row. -/
def rowSleeping : WoRow :=
  { id := "w1", locked := true, lockedBy := "agentA", state := some "Sleeping" }

/-- A one-pool table whose single pool refers to itself through a
`pool`-type attribute: the smallest cyclic pool definition. -/
def cyclePools : List Pool :=
  [{ name := "A", attributes := [{ type := "pool", name := some "A" }] }]

/-! ## Helper lemmas -/

theorem recordSend_emailsWrites_mem (cfg : SendCfg) (eff : SendEffects) (student : Student)
    (campaign : String) (p : String × String)
    (hp : p ∈ (recordSend cfg eff student campaign).emailsWrites) :
    p ∈ eff.emailsWrites ∨ p.2 = campaign := by
  unfold recordSend at hp
  split at hp
  · exact Or.inl hp
  · rcases List.mem_append.mp hp with h | h
    · exact Or.inl h
    · right
      rw [List.mem_singleton.mp h]

theorem recordSend_dryrun_frame (cfg : SendCfg) (eff : SendEffects) (student : Student)
    (campaign : String) (h : cfg.dryrun = true) :
    (recordSend cfg eff student campaign).emailsWrites = eff.emailsWrites
    ∧ (recordSend cfg eff student campaign).sendRecAppends = eff.sendRecAppends := by
  unfold recordSend
  rw [h]
  exact ⟨rfl, rfl⟩

theorem sendLoop_emailsWrites_mem (cfg : SendCfg) (env : SendEnv) (campaign : String) :
    ∀ (recips : List Student) (i : Nat) (eff : SendEffects) (p : String × String),
      p ∈ (sendLoop cfg env campaign recips i eff).2.emailsWrites →
      p ∈ eff.emailsWrites ∨ p.2 = campaign := by
  intro recips
  induction recips with
  | nil =>
    intro i eff p hp
    simp only [sendLoop] at hp
    exact Or.inl hp
  | cons st rest ih =>
    intro i eff p hp
    simp only [sendLoop] at hp
    split at hp
    · exact Or.inl hp
    · split at hp
      · exact Or.inl hp
      · split at hp
        · exact Or.inl hp
        · split at hp
          · exact Or.inl hp
          · split at hp
            · exact recordSend_emailsWrites_mem cfg eff st campaign p hp
            · rcases ih (i + 1) (recordSend cfg eff st campaign) p hp with h | h
              · exact recordSend_emailsWrites_mem cfg eff st campaign p h
              · exact Or.inr h

theorem sendLoop_dryrun_frame (cfg : SendCfg) (env : SendEnv) (campaign : String)
    (hdry : cfg.dryrun = true) :
    ∀ (recips : List Student) (i : Nat) (eff : SendEffects),
      (sendLoop cfg env campaign recips i eff).2.emailsWrites = eff.emailsWrites
      ∧ (sendLoop cfg env campaign recips i eff).2.sendRecAppends = eff.sendRecAppends := by
  intro recips
  induction recips with
  | nil =>
    intro i eff
    simp [sendLoop]
  | cons st rest ih =>
    intro i eff
    simp only [sendLoop]
    split
    · exact ⟨rfl, rfl⟩
    · split
      · exact ⟨rfl, rfl⟩
      · split
        · exact ⟨rfl, rfl⟩
        · split
          · exact ⟨rfl, rfl⟩
          · split
            · exact recordSend_dryrun_frame cfg eff st campaign hdry
            · have h1 := ih (i + 1) (recordSend cfg eff st campaign)
              have h2 := recordSend_dryrun_frame cfg eff st campaign hdry
              exact ⟨h1.1.trans h2.1, h1.2.trans h2.2⟩

theorem findEligible_selected_key_absent (fuel : Nat) (pools : List Pool) (wo : WorkOrder)
    (campaign : String) (sp : StagePools) (lang : String) :
    ∀ (students selected : List Student),
      findEligibleStudents fuel pools wo campaign sp lang students = .ok selected →
      ∀ s ∈ selected, hasKey s.emails campaign = false := by
  intro students
  induction students with
  | nil =>
    intro selected h s hs
    simp only [findEligibleStudents] at h
    cases h
    exact absurd hs (List.not_mem_nil s)
  | cons st rest ih =>
    intro selected h s hs
    simp only [findEligibleStudents] at h
    split at h
    · exact ih selected h s hs
    · split at h
      · exact ih selected h s hs
      · rename_i hrecv
        split at h
        · exact ih selected h s hs
        · split at h
          · exact ih selected h s hs
          · split at h
            · split at h
              · split at h
                · rename_i l heq
                  cases h
                  rcases List.mem_cons.mp hs with rfl | hmem
                  · simp only [Bool.not_eq_true] at hrecv
                    exact hrecv
                  · exact ih l heq s hmem
                · rename_i hne
                  exact absurd h (hne selected)
              · exact ih selected h s hs
              · simp at h
              · simp at h
            · exact ih selected h s hs
            · simp at h
            · simp at h


/-! ## Claim theorems -/

/-- C1 counterexample: on the S1 scenario (two enabled languages EN and
FR, three students of which one is unsubscribed and one holds the
hyphen-joined EN campaign key), the Count step computes a single
combined pair over the one underscore-joined campaign string and its
message carries no per-language counts: the message claimed by the spec
does not occur in it. -/
theorem c1_count_message_single_combined :
    countStepMessage 10 [s1C1, s2C1, s3C1] [poolEveryone] woS1
      = .ok "Already received: 0, Will send: 2, Total: 2"
    ∧ strContainsSub "Already received: 0, Will send: 2, Total: 2"
        "Already received: EN:1, FR:0" = false
    ∧ strContainsSub "Already received: 0, Will send: 2, Total: 2"
        "Will send: EN:1, FR:0" = false := by
  refine ⟨by decide, by decide, by decide⟩

/-- C1 amended: the Count step uses one campaign string for the whole
work order — underscore-joined, stage-aliased, and built from the first
`languages` key only — and on success writes the single combined message
`Already received: r, Will send: w, Total: r+w` with the pair computed
by `_count_recipients_simple` over that one string; there is no
per-language breakdown. -/
theorem c1_count_single_campaign_and_message (wo : WorkOrder) (l : String) (b : Bool)
    (rest : List (String × Bool)) (students : List Student) (pools : List Pool)
    (fuel r w : Nat)
    (hlang : wo.languages = (l, b) :: rest) (hne : l ≠ "") :
    countBuildCampaignString wo
      = wo.eventCode ++ "_" ++ wo.subEvent ++ "_" ++ countStageFixup wo.stage ++ "_"
          ++ strUpper l
    ∧ (countRecipientsSimple fuel pools wo (countBuildCampaignString wo) students 0 0
          = .ok r w →
       countStepMessage fuel students pools wo
         = .ok ("Already received: " ++ toString r ++ ", Will send: " ++ toString w
             ++ ", Total: " ++ toString (r + w))) := by
  have hp : ((fun p => p.1 != "") ((l, b) : String × Bool)) = true := by
    simp [hne]
  have hfind : List.find? (fun p => p.1 != "") ((l, b) :: rest) = some (l, b) :=
    List.find?_cons_of_pos _ hp
  have hfirst : countFirstLangCode wo.languages = strUpper l := by
    unfold countFirstLangCode
    rw [hlang, hfind]
  constructor
  · unfold countBuildCampaignString
    rw [hfirst]
  · intro h
    unfold countStepMessage
    rw [h]

/-- C1 witness: the amended statement instantiated on the S1 scenario. -/
theorem c1_count_single_campaign_and_message_witness :
    countBuildCampaignString woS1 = "vr20251001_retreat_reg_EN"
    ∧ countStepMessage 10 [s1C1, s2C1, s3C1] [poolEveryone] woS1
        = .ok "Already received: 0, Will send: 2, Total: 2" := by
  have h := c1_count_single_campaign_and_message woS1 "EN" true [("FR", true)]
    [s1C1, s2C1, s3C1] [poolEveryone] 10 0 2 rfl (by decide)
  exact ⟨h.1.trans (by decide), h.2 (by decide)⟩

/-- C3 counterexample: a locked work order in state `Sleeping` does not
keep its `locked`/`lockedBy` fields across `unlock_all_work_orders`; the
function releases it like any other locked row. -/
theorem c3_unlock_all_releases_sleeping :
    rowSleeping.locked = true
    ∧ rowSleeping.state = some "Sleeping"
    ∧ (unlockAllWorkOrders [rowSleeping]).1
        = [{ id := "w1", locked := false, lockedBy := "", state := some "Sleeping" }]
    ∧ (unlockAllWorkOrders [rowSleeping]).1 ≠ [rowSleeping] := by
  decide

/-- C3 amended: `unlock_all_work_orders` clears `locked` and `lockedBy`
on every locked work order, with no exception for state `Sleeping` (the
startup path separately re-locks sleeping work orders while rebuilding
the sleep queue); every row of the resulting table is unlocked. -/
theorem c3_unlock_all_clears_every_locked (store : List WoRow) (w : WoRow)
    (hmem : w ∈ store) (hlocked : w.locked = true) :
    { w with locked := false, lockedBy := "" } ∈ (unlockAllWorkOrders store).1
    ∧ ∀ w2 ∈ (unlockAllWorkOrders store).1, w2.locked = false := by
  constructor
  · simp only [unlockAllWorkOrders]
    refine List.mem_map.mpr ⟨w, hmem, ?_⟩
    rw [hlocked]
    simp
  · intro w2 hw2
    simp only [unlockAllWorkOrders] at hw2
    rcases List.mem_map.mp hw2 with ⟨w0, _, rfl⟩
    by_cases h0 : w0.locked <;> simp [h0]

/-- C3 witness: the amended statement instantiated on a locked sleeping
row. -/
theorem c3_unlock_all_clears_every_locked_witness :
    ({ rowSleeping with locked := false, lockedBy := "" } : WoRow)
        ∈ (unlockAllWorkOrders [rowSleeping]).1
    ∧ ∀ w2 ∈ (unlockAllWorkOrders [rowSleeping]).1, w2.locked = false :=
  c3_unlock_all_clears_every_locked [rowSleeping] rowSleeping (by decide) (by decide)

/-- C4 evaluation at the failing input: on the one-pool table whose pool
`A` refers to itself, `check_eligibility` reaches its recursion bound at
every fuel — the recursion never returns and never raises the
malformed-pool error, for every student and event context. -/
theorem c4_cyclic_pool_diverges (fuel : Nat) (student : Student) (aid : String)
    (subevent : Option String) :
    checkEligibilityFuel fuel "A" student aid cyclePools subevent = .diverge := by
  induction fuel with
  | zero => rfl
  | succ n ih =>
    unfold cyclePools at ih
    simp [checkEligibilityFuel, cyclePools, checkAttrList, evalAttr, List.find?, ih]

/-- C5 counterexample: a student whose `emails` ledger holds only the
underscore-joined form of the campaign key is *not* classified as
already received by the recipient selector — the check accepts the exact
hyphen-joined string only, so the student is selected again. -/
theorem c5_underscore_key_not_classified_received :
    u5.emails = [("ev_se_st_EN", "t")]
    ∧ buildCampaignString "ev" "se" "st" "EN" = "ev-se-st-EN"
    ∧ findEligibleStudents 5 [poolEveryone] woC5 (buildCampaignString "ev" "se" "st" "EN")
        none "EN" [u5] = .ok [u5] := by
  decide

/-- C5 amended: after a successful real send the recipient ledger key is
the canonical hyphen-joined `eventCode-subEvent-stage-L` with the raw
stage (every ledger write of a language pass carries exactly that key),
and on read the selector accepts only that exact key: every selected
student lacks the hyphen-joined key, and the underscore-joined form is
not recognized. -/
theorem c5_write_hyphen_read_exact_only :
    (∀ ec se st lang, buildCampaignString ec se st lang
        = ec ++ "-" ++ se ++ "-" ++ st ++ "-" ++ lang)
    ∧ (∀ (cfg : SendCfg) (env : SendEnv) (wo : WorkOrder) (lang : String)
        (eligible : List Student) (sid key : String),
        (sid, key) ∈ (sendLanguagePass cfg env wo lang eligible).2.emailsWrites →
        key = buildCampaignString wo.eventCode wo.subEvent wo.stage lang)
    ∧ (∀ (fuel : Nat) (pools : List Pool) (wo : WorkOrder) (campaign : String)
        (sp : StagePools) (lang : String) (students selected : List Student),
        findEligibleStudents fuel pools wo campaign sp lang students = .ok selected →
        ∀ s ∈ selected, hasKey s.emails campaign = false) := by
  refine ⟨fun _ _ _ _ => rfl, ?_, ?_⟩
  · intro cfg env wo lang eligible sid key hmem
    rcases sendLoop_emailsWrites_mem cfg env _ eligible 0 {} (sid, key) hmem with h | h
    · simp at h
    · exact h
  · exact fun fuel pools wo campaign sp lang students selected h s hs =>
      findEligible_selected_key_absent fuel pools wo campaign sp lang students selected h s hs

/-- C5 witness: the exact-read part instantiated on a concrete
selection. -/
theorem c5_write_hyphen_read_exact_only_witness :
    hasKey r0.emails "ev-se-st-EN" = false :=
  c5_write_hyphen_read_exact_only.2.2 5 [poolEveryone] woC5 "ev-se-st-EN" none "EN"
    [r0] [r0] (by decide) r0 (by decide)

/-- C8 counterexample: a second start command against the `working`
`Prepare` step is dropped, but the handling is not free of work-order
writes — it unconditionally clears `stopRequested` first, so a
previously requested stop is erased. -/
theorem c8_duplicate_start_clears_stop_flag :
    woC8.stopRequested = true
    ∧ handleStartPrefix woC8 "Prepare"
        = ({ woC8 with stopRequested := false }, .droppedDuplicate)
    ∧ ({ woC8 with stopRequested := false } : WorkOrder) ≠ woC8 := by
  decide

/-- C8 amended: handling a start command for a step whose status is
`working` (with its predecessor complete or the step first) is dropped
without touching any step status or the lock state, but only after the
handler has unconditionally cleared `stopRequested` on the work order. -/
theorem c8_duplicate_start_only_clears_stop_flag (wo : WorkOrder) (stepName : String)
    (idx : Nat) (step : Step)
    (hidx : wo.steps.findIdx? (fun s => s.name == stepName) = some idx)
    (hstep : wo.steps[idx]? = some step)
    (hworking : step.status = .working)
    (hprev : prevStepComplete wo.steps idx = true) :
    handleStartPrefix wo stepName = ({ wo with stopRequested := false }, .droppedDuplicate) := by
  have e1 : ({ wo with stopRequested := false } : WorkOrder).steps = wo.steps := rfl
  simp only [handleStartPrefix, e1, hidx, hstep, hprev, hworking]
  simp

/-- C8 witness: the amended statement instantiated on a work order with
a working `Prepare` step after a complete `Count` step. -/
theorem c8_duplicate_start_only_clears_stop_flag_witness :
    handleStartPrefix woC8 "Prepare" = ({ woC8 with stopRequested := false }, .droppedDuplicate) :=
  c8_duplicate_start_only_clears_stop_flag woC8 "Prepare" 1
    { name := "Prepare", status := .working } (by decide) (by decide) rfl (by decide)

/-- C2 counterexample evaluation: with three eligible recipients and
`stopRequested` observed at the reload before recipient index 1, the
Send loop returns a local stop after recording recipient 0 in both the
student ledger and the send-recipient log, and the step processor
persists step status `error` with message `Step failed` — not
`interrupted` as the claim states. -/
theorem c2_stop_observed_persists_error_not_interrupted :
    sendLanguagePass cfgSend envStopAt1 woC5 "EN" [r0, r1, r2]
      = (.stoppedLocal,
         { emailsWrites := [("r0", "ev-se-st-EN")],
           sendRecAppends := ["r0@x"], dryrunAppends := [] })
    ∧ sendPersistedStatus "" .stoppedLocal = (.error, "Step failed")
    ∧ (sendPersistedStatus "" .stoppedLocal).1 ≠ .interrupted := by
  refine ⟨by decide, rfl, by decide⟩

/-- C6 counterexample: a step handler that raises a generic (untyped)
exception leaves the step with persisted status `error` carrying the
message — not `exception` as the claim states. -/
theorem c6_generic_exception_persists_error :
    processStepPersist (.raisedExc "boom") = (.error, "boom")
    ∧ (processStepPersist (.raisedExc "boom")).1 ≠ .exception :=
  ⟨rfl, by decide⟩

/-- C6 amended: the step processor never persists `exception` for any
handler outcome; a raised `InterruptedError` persists `interrupted`, and
every other raised exception persists `error` with the exception
message (as does a `False` return, with `Step failed`); the same holds
for the Send branch through its loop outcome.  The `exception` status is
set only by the agent when its own handling outside the step processor
throws. -/
theorem c6_executor_never_persists_exception :
    (∀ ev : HandlerEvent, (processStepPersist ev).1 ≠ .exception)
    ∧ (∀ msg, processStepPersist (.raisedExc msg) = (.error, msg))
    ∧ processStepPersist .raisedInterrupted = (.interrupted, "Step interrupted by stop request.")
    ∧ processStepPersist .returnedFalse = (.error, "Step failed")
    ∧ (∀ m msg, sendPersistedStatus m (.raised msg) = (.error, msg))
    ∧ (∀ m, sendPersistedStatus m .stoppedLocal = (.error, "Step failed")) := by
  refine ⟨?_, fun _ => rfl, rfl, rfl, fun _ _ => rfl, fun _ => rfl⟩
  intro ev
  cases ev <;> simp [processStepPersist]

/-- C7 evaluation at the failing input: a freshly constructed agent
parks a continuous-send work order, the entry lands in the step
processor's private queue, and the queue the main loop sweeps stays
empty at every `now` — the work order is never woken.  Had the agent
shared its queue with the processor, the entry would be swept as soon as
`sleepUntil ≤ now`. -/
theorem c7_parked_entry_not_in_swept_queue :
    (∀ (woId : String) (sleepUntil now : Int),
      sweepWakeable (parkWorkOrder mkEmailAgentQueues woId sleepUntil) now = []
      ∧ (parkWorkOrder mkEmailAgentQueues woId sleepUntil).procQueue = [⟨woId, sleepUntil⟩])
    ∧ (∀ (woId : String) (sleepUntil now : Int),
      sweepWakeable
          (parkWorkOrder { mkEmailAgentQueues with procSharesAgentQueue := true } woId sleepUntil)
          now
        = if sleepUntil ≤ now then [⟨woId, sleepUntil⟩] else []) := by
  constructor
  · intro woId su now
    constructor
    · simp [sweepWakeable, parkWorkOrder, mkEmailAgentQueues]
    · simp [parkWorkOrder, mkEmailAgentQueues, processorParkAppend]
  · intro woId su now
    by_cases h : su ≤ now <;>
      simp [sweepWakeable, parkWorkOrder, mkEmailAgentQueues, processorParkAppend,
        List.filter_cons, h]

/-- C9: during a dry-run pass (`dryrun = true`) no student `emails`
ledger write happens and nothing is appended to the send-recipient log;
applying the pass's (empty) ledger writes to any student table leaves it
unchanged, so a subsequent real Send selects from unchanged records. -/
theorem c9_dryrun_writes_no_ledger (cfg : SendCfg) (env : SendEnv) (wo : WorkOrder)
    (lang : String) (eligible students : List Student) (ts : String)
    (hdry : cfg.dryrun = true) :
    (sendLanguagePass cfg env wo lang eligible).2.emailsWrites = []
    ∧ (sendLanguagePass cfg env wo lang eligible).2.sendRecAppends = []
    ∧ applyEmailWrites students (sendLanguagePass cfg env wo lang eligible).2.emailsWrites ts
        = students := by
  have h := sendLoop_dryrun_frame cfg env
    (buildCampaignString wo.eventCode wo.subEvent wo.stage lang) hdry eligible 0 {}
  refine ⟨h.1, h.2, ?_⟩
  show applyEmailWrites students (sendLanguagePass cfg env wo lang eligible).2.emailsWrites ts
    = students
  rw [show (sendLanguagePass cfg env wo lang eligible).2.emailsWrites = [] from h.1]
  rfl

/-- C9 witness: a concrete dry run over one recipient. -/
theorem c9_dryrun_writes_no_ledger_witness :
    (sendLanguagePass cfgDry envQuiet woC5 "EN" [r0]).2.emailsWrites = []
    ∧ (sendLanguagePass cfgDry envQuiet woC5 "EN" [r0]).2.sendRecAppends = []
    ∧ applyEmailWrites [u5] (sendLanguagePass cfgDry envQuiet woC5 "EN" [r0]).2.emailsWrites "t"
        = [u5] :=
  c9_dryrun_writes_no_ledger cfgDry envQuiet woC5 "EN" [r0] [u5] "t" rfl

/-- C10: when the send-recipient scan fails, the 24-hour counter
returns 0, so for every positive limit the Send pre-check does not block
and the periodic every-10 re-check never trips — the quota is enforced
fail-open under store errors. -/
theorem c10_quota_fail_open (msg account : String) (cutoff : Int) (cfg : SendCfg)
    (i : Nat) (hpos : 0 < cfg.sendLimit) :
    countEmails24h (.error msg) account cutoff = 0
    ∧ quotaPreCheckBlocks (countEmails24h (.error msg) account cutoff) cfg.sendLimit = false
    ∧ quotaTripped cfg i (countEmails24h (.error msg) account cutoff) = false := by
  have hz : (decide (cfg.sendLimit ≤ 0)) = false := by
    simp only [decide_eq_false_iff_not]
    omega
  refine ⟨rfl, ?_, ?_⟩
  · simp only [quotaPreCheckBlocks, countEmails24h]
    exact hz
  · simp only [quotaTripped, countEmails24h, hz, Bool.and_false]

/-- C10 witness: a concrete failing scan with limit 1000. -/
theorem c10_quota_fail_open_witness :
    countEmails24h (.error "boom") "connect" 0 = 0
    ∧ quotaPreCheckBlocks (countEmails24h (.error "boom") "connect" 0) cfgSend.sendLimit = false
    ∧ quotaTripped cfgSend 10 (countEmails24h (.error "boom") "connect" 0) = false :=
  c10_quota_fail_open "boom" "connect" 0 cfgSend 10 (by decide)

end EmailAgent
